import Mathlib

/-!
Verification of the Blog-Writer-Agent pipeline.

Shallow embedding of the LangGraph-based blog generation pipeline:
the content metrics of `models.py`, the regex-based response parsers and
node functions of `graph.py`, the footer generation of `main.py` and
`formatters/medium_formatter.py`, the meta-description truncation of
`agents/seo_agent.py`, and the `slugify` helper of `main.py`.

Python strings are modelled as Lean `String` / `List Char` (one Python
character per `Char`); machine integers are `Nat` (all counters in the
source are non-negative).  Regular-expression searches are modelled by
explicit left-to-right scanners that mirror the leftmost-match semantics
of `re.search` for the concrete patterns used by the source.
-/

/-! ## Python string primitives -/

/-- The character class stripped by Python `str.strip()` and matched by the
regex class `\s` for the ASCII range: space, tab, newline, carriage return,
vertical tab, form feed. -/
def pyIsSpace (c : Char) : Bool :=
  c = ' ' || c = '\t' || c = '\n' || c = '\r' || c = '\x0b' || c = '\x0c'

/-- Strip characters satisfying `p` from both ends of a character list,
modelling Python `str.strip` (and `str.strip('_')` when `p` tests for an
underscore). -/
def pyStripList (p : Char → Bool) (l : List Char) : List Char :=
  ((l.dropWhile p).reverse.dropWhile p).reverse

/-- Python `str.strip()` on strings. -/
def pyStrip (s : String) : String :=
  ⟨pyStripList pyIsSpace s.data⟩

/-- Python `str.split(sep)` for a single-character separator: split at every
occurrence of `sep`, keeping empty pieces.  `"".split(sep) == [""]`. -/
def pySplitChar (sep : Char) : List Char → List Char → List (List Char)
  | acc, [] => [acc.reverse]
  | acc, c :: rest =>
    if c = sep then acc.reverse :: pySplitChar sep [] rest
    else pySplitChar sep (c :: acc) rest

/-- Python `str.split()` with no separator: the maximal runs of
non-whitespace characters, in order, with empty runs discarded.
`acc` accumulates the current token in reverse. -/
def pyTokensAux : List Char → List Char → List (List Char)
  | acc, [] => if acc.isEmpty then [] else [acc.reverse]
  | acc, c :: rest =>
    if pyIsSpace c then
      if acc.isEmpty then pyTokensAux [] rest
      else acc.reverse :: pyTokensAux [] rest
    else pyTokensAux (c :: acc) rest

/-- Python `haystack.count(needle)`: number of non-overlapping occurrences,
scanning left to right.  The `Nat` argument is the number of characters
still to be skipped after a match. -/
def pyCountAux (needle : List Char) : List Char → Nat → Nat
  | [], _ => 0
  | _ :: rest, Nat.succ k => pyCountAux needle rest k
  | c :: rest, 0 =>
    if needle.isPrefixOf (c :: rest) then
      1 + pyCountAux needle rest (needle.length - 1)
    else
      pyCountAux needle rest 0

/-- Python `haystack.count(needle)` on strings.  For an empty needle Python
returns `len(haystack) + 1`. -/
def pyCount (needle haystack : String) : Nat :=
  if needle.data.isEmpty then haystack.data.length + 1
  else pyCountAux needle.data haystack.data 0

/-- Python `str.title()` used by `extract_title`'s fallback: an alphabetic
character is uppercased when the preceding character is not alphabetic and
lowercased otherwise. -/
def pyTitleAux : Bool → List Char → List Char
  | _, [] => []
  | prevAlpha, c :: rest =>
    (if c.isAlpha then (if prevAlpha then c.toLower else c.toUpper) else c)
      :: pyTitleAux c.isAlpha rest

/-! ## Content metrics (`models.py`) -/

/-- `models.count_words`: `len(content.split())`. -/
def count_words (content : String) : Nat :=
  (pyTokensAux [] content.data).length

/-- `models.count_code_blocks`:
`content.count("```python") + content.count("```py")`. -/
def count_code_blocks (content : String) : Nat :=
  pyCount "```python" content + pyCount "```py" content

/-- A line that, after stripping, both starts and ends with a pipe character,
as tested by `models.count_tables`. -/
def isTableLine (l : List Char) : Bool :=
  let s := pyStripList pyIsSpace l
  (s.head? == some '|') && (s.getLast? == some '|')

/-- `models.count_tables`: split on newlines, keep lines that stripped start
and end with `|`, return `max(0, len(table_lines) // 3)`. -/
def count_tables (content : String) : Nat :=
  let lines := pySplitChar '\n' [] content.data
  let tableLines := lines.filter isTableLine
  max 0 (tableLines.length / 3)

/-- `models.extract_title`: first line of the stripped content starting with
a `"# "` heading marker, with the marker removed and the rest stripped;
otherwise `fallback.title()`. -/
def extract_title (content fallback : String) : String :=
  let lines := pySplitChar '\n' [] (pyStripList pyIsSpace content.data)
  match lines.find? (fun l => ("# ".data).isPrefixOf l) with
  | some l => ⟨pyStripList pyIsSpace (l.drop 2)⟩
  | none => ⟨pyTitleAux false fallback.data⟩

/-! ## Specification-side characterisation for the word count

`tokenStarts true l` counts the positions of `l` that hold a non-whitespace
character whose predecessor (if any) is whitespace: the number of
whitespace-separated tokens of the text. -/

/-- Number of maximal non-whitespace runs; the flag records whether the
previous character was whitespace (or the start of the text). -/
def tokenStarts : Bool → List Char → Nat
  | _, [] => 0
  | prevWs, c :: rest =>
    if pyIsSpace c then tokenStarts true rest
    else (if prevWs then 1 else 0) + tokenStarts false rest

/-! ## Regex-based response parsers (`graph.py`)

The score patterns `OVERALL_SCORE:\s*(\d+)` and `SEO_SCORE:\s*(\d+)` are
searched case-sensitively; the list pattern
`LABEL:\s*((?:[-•]\s*[^\n]+\n?)+)` and the single-value pattern
`LABEL:\s*([^\n]+)` are searched with `re.IGNORECASE`.  `re.search` finds
the leftmost position at which the whole pattern matches; the scanners
below try each position from the left and stop at the first success. -/

/-- Case-insensitive match of `pat` as a prefix of `l`; on success returns
the remaining characters.  Models Python regex literal characters under
`re.IGNORECASE`. -/
def matchCI : List Char → List Char → Option (List Char)
  | [], l => some l
  | _ :: _, [] => none
  | p :: ps, c :: cs => if p.toLower = c.toLower then matchCI ps cs else none

/-- `true` when `needle` occurs case-insensitively anywhere in `haystack`. -/
def occursCI (needle : List Char) : List Char → Bool
  | [] => (matchCI needle []).isSome
  | c :: rest => (matchCI needle (c :: rest)).isSome || occursCI needle rest

/-- Digit run to a number, as Python `int()` on a `\d+` match. -/
def digitsToNat (l : List Char) : Nat :=
  l.foldl (fun acc c => acc * 10 + (c.toNat - '0'.toNat)) 0

/-- Try to match `LABEL:\s*(\d+)` at the head of `l` (`label` includes the
trailing colon; the score regexes are case-sensitive).  `\s*` and `\d+` use
disjoint character classes, so greedy scanning is exact. -/
def tryScoreAt (label : List Char) (l : List Char) : Option Nat :=
  if label.isPrefixOf l then
    let afterWs := (l.drop label.length).dropWhile pyIsSpace
    let digits := afterWs.takeWhile Char.isDigit
    if digits.isEmpty then none else some (digitsToNat digits)
  else none

/-- Leftmost match of `LABEL:\s*(\d+)`, as `re.search`. -/
def findScore (label : List Char) : List Char → Option Nat
  | [] => none
  | c :: rest =>
    match tryScoreAt label (c :: rest) with
    | some n => some n
    | none => findScore label rest

/-- The clamp `min(10, max(1, n))` applied to each parsed score. -/
def clampScore (n : Nat) : Nat := min 10 (max 1 n)

/-- Score extraction of `reviewer_node` (graph.py lines 463-466): default 5,
overridden by the clamped first `OVERALL_SCORE:\s*(\d+)` match. -/
def parse_overall_score (review_text : String) : Nat :=
  match findScore ("OVERALL_SCORE:".data) review_text.data with
  | some n => clampScore n
  | none => 5

/-- Score extraction of `seo_node` (graph.py lines 557-560): default 5,
overridden by the clamped first `SEO_SCORE:\s*(\d+)` match. -/
def parse_seo_score (seo_text : String) : Nat :=
  match findScore ("SEO_SCORE:".data) seo_text.data with
  | some n => clampScore n
  | none => 5

/-- A list bullet marker `[-•]`. -/
def isBullet (c : Char) : Bool := c = '-' || c = '•'

/-- One bullet item `[-•]\s*([^\n]+)\n?`: a bullet marker, greedily skipped
whitespace, a non-empty run of non-newline characters (the captured item),
and at most one consumed newline.  Returns the item and the rest. -/
def parseBulletLine : List Char → Option (List Char × List Char)
  | [] => none
  | c :: rest =>
    if isBullet c then
      let afterWs := rest.dropWhile pyIsSpace
      let item := afterWs.takeWhile (fun d => d ≠ '\n')
      if item.isEmpty then none
      else
        match afterWs.drop item.length with
        | '\n' :: r3 => some (item, r3)
        | r3 => some (item, r3)
    else none

/-- The bullet run `(?:[-•]\s*[^\n]+\n?)+` followed by the item extraction
`re.findall(r'[-•]\s*([^\n]+)', ...)`: the greedy sequence of bullet items.
Each item consumes at least the bullet character, so `l.length + 1` fuel
always suffices. -/
def bulletRunAux : Nat → List Char → List (List Char)
  | 0, _ => []
  | fuel + 1, l =>
    match parseBulletLine l with
    | none => []
    | some (item, rest) => item :: bulletRunAux fuel rest

/-- Try the full list pattern `LABEL:\s*((?:[-•]\s*[^\n]+\n?)+)` at the head
of `l`; the match requires at least one bullet item. -/
def tryListAt (label : List Char) (l : List Char) : Option (List (List Char)) :=
  match matchCI (label ++ [':']) l with
  | none => none
  | some afterLabel =>
    let afterWs := afterLabel.dropWhile pyIsSpace
    let items := bulletRunAux (afterWs.length + 1) afterWs
    if items.isEmpty then none else some items

/-- Leftmost match of the list pattern, as `re.search` with `re.IGNORECASE`. -/
def findList (label : List Char) : List Char → Option (List (List Char))
  | [] => none
  | c :: rest =>
    match tryListAt label (c :: rest) with
    | some items => some items
    | none => findList label rest

/-- The `extract_list` helper shared by `researcher_node`, `reviewer_node`
and `seo_node`: items of the first matching section, stripped, with items
that strip to the empty string discarded; `[]` when no section matches. -/
def extract_list (label text : String) : List String :=
  match findList label.data text.data with
  | none => []
  | some items =>
    (items.map (fun item => (⟨pyStripList pyIsSpace item⟩ : String))).filter
      (fun s => s ≠ "")

/-- Try the single-value pattern `LABEL:\s*([^\n]+)` at the head of `l`.
Backtracking of `\s*` into `[^\n]+` (possible only when everything from the
label to the end of the line is whitespace, in which case the stripped
capture is empty anyway) is treated as a non-match. -/
def tryValueAt (label : List Char) (l : List Char) : Option (List Char) :=
  match matchCI (label ++ [':']) l with
  | none => none
  | some afterLabel =>
    let afterWs := afterLabel.dropWhile pyIsSpace
    let v := afterWs.takeWhile (fun d => d ≠ '\n')
    if v.isEmpty then none else some v

/-- Leftmost match of the single-value pattern. -/
def findValue (label : List Char) : List Char → Option (List Char)
  | [] => none
  | c :: rest =>
    match tryValueAt label (c :: rest) with
    | some v => some v
    | none => findValue label rest

/-- The `extract_value` helper of `seo_node` (graph.py lines 569-571):
the stripped captured rest-of-line of the first match, `""` otherwise. -/
def extract_value (label text : String) : String :=
  match findValue label.data text.data with
  | none => ""
  | some v => ⟨pyStripList pyIsSpace v⟩

/-- Python `a or b` on a list value: `b` when `a` is empty. -/
def orElseList (a b : List String) : List String :=
  if a.isEmpty then b else a

/-- Python `a or b` on a string value: `b` when `a` is empty. -/
def orElseStr (a b : String) : String :=
  if a = "" then b else a

/-! ## Pipeline state and node functions (`models.py`, `graph.py`)

The LLM service and the web-search backends are external collaborators:
their responses enter the model as an `Oracles` record (one response per
pipeline stage and iteration).  Each node returns a partial state update
that LangGraph merges into the state; the merge is modelled by a record
update, and the additive `messages` reducer by list append. -/

/-- One raw search result (`perform_research`). -/
structure SourceR where
  source : String
  content : String
  url : String
deriving Repr, DecidableEq

/-- The `research_context` dictionary built by `researcher_node`
(graph.py lines 222-231).  As a Python dict it always carries its eight
keys, hence it is truthy whenever present; `Option` absence models the
initial `None`. -/
structure ResearchContextR where
  raw_sources : List SourceR
  search_engine : String
  key_facts : List String
  statistics : List String
  best_practices : List String
  recommended_topics : List String
  key_sources : List String
  synthesis : String
deriving Repr, DecidableEq

/-- The `feedback` dictionary built by `reviewer_node`
(graph.py lines 475-481). -/
structure ReviewFeedbackR where
  overall_score : Nat
  strengths : List String
  improvements : List String
  priority_fixes : List String
  detailed_feedback : String
deriving Repr, DecidableEq

/-- The `analysis` dictionary built by `seo_node`
(graph.py lines 573-581). -/
structure SEOAnalysisR where
  seo_score : Nat
  primary_keywords : List String
  secondary_keywords : List String
  optimized_title : String
  meta_description : String
  content_suggestions : List String
  detailed_analysis : String
deriving Repr, DecidableEq

/-- An entry of the additive `messages` log.  Every node appends a dict
carrying its role name and the current iteration (further payload fields
of the source dicts do not feed back into control flow and are elided). -/
structure MessageR where
  role : String
  iteration : Nat
deriving Repr, DecidableEq

/-- `models.BlogState`: the shared LangGraph state record. -/
structure BlogStateR where
  topic : String
  current_iteration : Nat
  max_iterations : Nat
  draft_content : String
  title : String
  research_context : Option ResearchContextR
  review_feedback : Option ReviewFeedbackR
  seo_analysis : Option SEOAnalysisR
  word_count : Nat
  code_block_count : Nat
  table_count : Nat
  messages : List MessageR
  is_complete : Bool
  final_review_score : Nat
  final_seo_score : Nat
deriving Repr, DecidableEq

/-- `models.create_initial_state`. -/
def create_initial_state (topic : String) (max_iterations : Nat) : BlogStateR :=
  { topic := topic
  , current_iteration := 1
  , max_iterations := max_iterations
  , draft_content := ""
  , title := ""
  , research_context := none
  , review_feedback := none
  , seo_analysis := none
  , word_count := 0
  , code_block_count := 0
  , table_count := 0
  , messages := []
  , is_complete := false
  , final_review_score := 0
  , final_seo_score := 0 }

/-- External inputs of one run: the deduplicated search results and engine
name produced by `perform_research`, the research-synthesis completion,
and the writer/reviewer/SEO completions per iteration number. -/
structure Oracles where
  research_sources : List SourceR
  research_search_engine : String
  research_synthesis : String
  writer_response : Nat → String
  reviewer_response : Nat → String
  seo_response : Nat → String

/-- The `research_context` dict assembled on the first iteration
(graph.py lines 222-231); the five list sections come from `extract_list`
over the synthesis response. -/
def researchContextOf (o : Oracles) : ResearchContextR :=
  { raw_sources := o.research_sources
  , search_engine := o.research_search_engine
  , key_facts := extract_list "KEY_FACTS" o.research_synthesis
  , statistics := extract_list "STATISTICS" o.research_synthesis
  , best_practices := extract_list "BEST_PRACTICES" o.research_synthesis
  , recommended_topics := extract_list "RECOMMENDED_TOPICS" o.research_synthesis
  , key_sources := extract_list "KEY_SOURCES" o.research_synthesis
  , synthesis := o.research_synthesis }

/-- `graph.researcher_node`: on iterations after the first, when a cached
research context exists (the dict is always truthy), the node only appends
a "cached" message; otherwise it performs research and synthesis and
stores the assembled context. -/
def researcher_node (o : Oracles) (s : BlogStateR) : BlogStateR :=
  if 1 < s.current_iteration && s.research_context.isSome then
    { s with messages := s.messages ++ [⟨"researcher", s.current_iteration⟩] }
  else
    { s with
        research_context := some (researchContextOf o)
        messages := s.messages ++ [⟨"researcher", s.current_iteration⟩] }

/-- `graph.writer_node`: the completion becomes the new draft and the
derived metrics are recomputed from scratch. -/
def writer_node (o : Oracles) (s : BlogStateR) : BlogStateR :=
  let content := o.writer_response s.current_iteration
  { s with
      draft_content := content
      title := extract_title content s.topic
      word_count := count_words content
      code_block_count := count_code_blocks content
      table_count := count_tables content
      messages := s.messages ++ [⟨"writer", s.current_iteration⟩] }

/-- The feedback dict of `reviewer_node` for a given completion; the three
list fields fall back to hard-coded one-element lists via Python `or`. -/
def reviewFeedbackOf (review_text : String) : ReviewFeedbackR :=
  { overall_score := parse_overall_score review_text
  , strengths := orElseList (extract_list "STRENGTHS" review_text)
      ["Content is well-structured"]
  , improvements := orElseList (extract_list "IMPROVEMENTS" review_text)
      ["Consider adding more depth"]
  , priority_fixes := orElseList (extract_list "PRIORITY_FIXES" review_text)
      ["Expand key sections"]
  , detailed_feedback := review_text }

/-- `graph.reviewer_node`. -/
def reviewer_node (o : Oracles) (s : BlogStateR) : BlogStateR :=
  { s with
      review_feedback := some (reviewFeedbackOf (o.reviewer_response s.current_iteration))
      messages := s.messages ++ [⟨"reviewer", s.current_iteration⟩] }

/-- The analysis dict of `seo_node` for a given completion, topic and
current title; fallbacks are synthesised from the topic via Python `or`.
No truncation is applied to the meta description here. -/
def seoAnalysisOf (seo_text topic title : String) : SEOAnalysisR :=
  { seo_score := parse_seo_score seo_text
  , primary_keywords := orElseList (extract_list "PRIMARY_KEYWORDS" seo_text)
      [⟨(topic.data.map Char.toLower)⟩]
  , secondary_keywords := orElseList (extract_list "SECONDARY_KEYWORDS" seo_text) []
  , optimized_title := orElseStr (extract_value "OPTIMIZED_TITLE" seo_text) title
  , meta_description := orElseStr (extract_value "META_DESCRIPTION" seo_text)
      ("Learn about " ++ topic ++ " in this comprehensive guide.")
  , content_suggestions := orElseList (extract_list "CONTENT_SUGGESTIONS" seo_text) []
  , detailed_analysis := seo_text }

/-- `graph.seo_node`. -/
def seo_node (o : Oracles) (s : BlogStateR) : BlogStateR :=
  { s with
      seo_analysis := some (seoAnalysisOf (o.seo_response s.current_iteration) s.topic s.title)
      messages := s.messages ++ [⟨"seo_optimizer", s.current_iteration⟩] }

/-- `graph.iteration_controller` (graph.py lines 595-613): when the
incremented counter exceeds `max_iterations`, set the completion flag and
freeze the final scores, leaving `current_iteration` unchanged; otherwise
store the incremented counter. -/
def iteration_controller (s : BlogStateR) : BlogStateR :=
  let new_iteration := s.current_iteration + 1
  if s.max_iterations < new_iteration then
    { s with
        is_complete := true
        final_review_score :=
          match s.review_feedback with
          | some rf => rf.overall_score
          | none => 0
        final_seo_score :=
          match s.seo_analysis with
          | some sa => sa.seo_score
          | none => 0 }
  else
    { s with current_iteration := new_iteration }

/-- The two targets of the conditional edge leaving the controller. -/
inductive Route where
  | writer : Route
  | finish : Route
deriving Repr, DecidableEq

/-- `graph.should_continue` (graph.py lines 620-626): route to `END` when
the completion flag is set, otherwise back to the researcher. -/
def should_continue (s : BlogStateR) : Route :=
  if s.is_complete then Route.finish else Route.writer

/-! ## The compiled graph (`create_blog_graph`) and its execution

`START → researcher → writer → reviewer → seo → controller`, with the
conditional edge looping back to the researcher until `should_continue`
answers `finish`.  `Counts` instruments how often each node body ran and
which branch the researcher took. -/

/-- Node-execution counters for one run. -/
structure Counts where
  researcher_full : Nat
  researcher_cached : Nat
  writer : Nat
  reviewer : Nat
  seo : Nat
deriving Repr, DecidableEq

/-- All-zero counters. -/
def counts0 : Counts := ⟨0, 0, 0, 0, 0⟩

/-- One trip around the cycle
`researcher → writer → reviewer → seo → controller`, with counters. -/
def graph_pass (o : Oracles) (sc : BlogStateR × Counts) : BlogStateR × Counts :=
  let s := sc.1
  let c := sc.2
  let cached := 1 < s.current_iteration && s.research_context.isSome
  let s5 := iteration_controller (seo_node o (reviewer_node o (writer_node o (researcher_node o s))))
  (s5,
   { researcher_full := c.researcher_full + (if cached then 0 else 1)
   , researcher_cached := c.researcher_cached + (if cached then 1 else 0)
   , writer := c.writer + 1
   , reviewer := c.reviewer + 1
   , seo := c.seo + 1 })

/-- Repeat `graph_pass` until `should_continue` routes to `END`.  `fuel`
bounds the recursion; each claim instantiates it with a value shown to be
sufficient (the controller completes after `max_iterations` passes). -/
def run_graph_aux (o : Oracles) : Nat → BlogStateR × Counts → BlogStateR × Counts
  | 0, sc => sc
  | fuel + 1, sc =>
    let sc2 := graph_pass o sc
    match should_continue sc2.1 with
    | Route.finish => sc2
    | Route.writer => run_graph_aux o fuel sc2

/-- One run of the compiled graph on `create_initial_state topic n`,
counting node executions.  `n` passes always reach completion. -/
def run_graph (o : Oracles) (topic : String) (n : Nat) : BlogStateR × Counts :=
  run_graph_aux o n (create_initial_state topic n, counts0)

/-- Oracles returning empty search results and empty completions, for
concrete end-to-end evaluations. -/
def trivialOracles : Oracles :=
  ⟨[], "", "", fun _ => "", fun _ => "", fun _ => ""⟩


/-! ## Exporter footer (`main.py` lines 183-194 and
`MediumFormatter._generate_footer`, `medium_formatter.py` lines 77-92) -/

/-- The computed parts of the exported footer. -/
structure FooterR where
  reading_time_minutes : Nat
  words : Nat
  tags : List String
deriving Repr, DecidableEq

/-- The footer data: reading time `word_count // 200`, the word count, and
the tag list `seo.get('primary_keywords', [topic])[:5]` (the fallback list
holding the topic is used when the key is absent). -/
def generate_footer (word_count : Nat) (primary_keywords : Option (List String))
    (topic : String) : FooterR :=
  { reading_time_minutes := word_count / 200
  , words := word_count
  , tags := (primary_keywords.getD [topic]).take 5 }

/-! ## Meta-description truncation (`agents/seo_agent.py` lines 142-144)

`SEOAgent._parse_seo_response` alone truncates:
`if len(meta_description) > 160: meta_description = meta_description[:157] + "..."`.
The LangGraph `seo_node` (see `seoAnalysisOf`) stores the extracted
candidate unchanged. -/

/-- The truncation step of `SEOAgent._parse_seo_response`. -/
def truncate_meta_description (s : String) : String :=
  if 160 < s.data.length then ⟨s.data.take 157 ++ ("...".data)⟩ else s

/-! ## Output-file slug (`main.py` lines 32-38) -/

/-- The characters kept by `re.sub(r'[^a-z0-9\s-]', '', text)`. -/
def slugAllowed (c : Char) : Bool :=
  ('a' ≤ c && c ≤ 'z') || ('0' ≤ c && c ≤ '9') || pyIsSpace c || c = '-'

/-- The class `[\s_]` collapsed by `re.sub(r'[\s_]+', '_', text)`. -/
def wsOrUnderscore (c : Char) : Bool := pyIsSpace c || c = '_'

/-- Replace every maximal run of `[\s_]` characters by one underscore; the
flag records whether the previous character belonged to a run. -/
def collapseRuns : Bool → List Char → List Char
  | _, [] => []
  | inRun, c :: rest =>
    if wsOrUnderscore c then
      if inRun then collapseRuns true rest
      else '_' :: collapseRuns true rest
    else c :: collapseRuns false rest

/-- `main.slugify`: lowercase, drop characters outside `[a-z0-9\s-]`,
collapse whitespace/underscore runs to `_`, strip underscores from both
ends, keep the first 50 characters. -/
def slugify (s : String) : String :=
  let lowered := s.data.map Char.toLower
  let kept := lowered.filter slugAllowed
  let collapsed := collapseRuns false kept
  let stripped := pyStripList (fun c => c = '_') collapsed
  ⟨stripped.take 50⟩

/-- The characters allowed in a slug: lowercase ASCII letters, digits,
hyphen, underscore. -/
def isSlugChar (c : Char) : Bool :=
  ('a' ≤ c && c ≤ 'z') || ('0' ≤ c && c ≤ '9') || c = '-' || c = '_'

/-! ## Helper lemmas -/

/-- The token list of `str.split()` has as many entries as there are
maximal non-whitespace runs in the text. -/

theorem pyTokensAux_length (l : List Char) :
    ∀ acc : List Char,
      (pyTokensAux acc l).length =
        if acc.isEmpty then tokenStarts true l else 1 + tokenStarts false l := by
  induction l with
  | nil =>
    intro acc
    cases acc <;> simp [pyTokensAux, tokenStarts]
  | cons c rest ih =>
    intro acc
    by_cases hws : pyIsSpace c = true
    · cases acc <;> simp [pyTokensAux, tokenStarts, hws, ih, Nat.add_comm]
    · cases acc <;>
        simp [pyTokensAux, tokenStarts, hws, ih, Nat.add_comm]


/-! ## Run invariants -/

/-- Control-relevant state fields after one pass: the bound is unchanged;
the research context is kept on the cached branch and freshly assembled
otherwise; the controller either freezes the counter and completes, or
increments the counter below the bound. -/
theorem graph_pass_state (o : Oracles) (s : BlogStateR) (c : Counts) :
    ((graph_pass o (s, c)).1.max_iterations = s.max_iterations) ∧
    ((graph_pass o (s, c)).1.research_context =
      if 1 < s.current_iteration && s.research_context.isSome
      then s.research_context else some (researchContextOf o)) ∧
    (s.max_iterations < s.current_iteration + 1 →
      (graph_pass o (s, c)).1.current_iteration = s.current_iteration ∧
      (graph_pass o (s, c)).1.is_complete = true) ∧
    (s.current_iteration + 1 ≤ s.max_iterations →
      (graph_pass o (s, c)).1.current_iteration = s.current_iteration + 1 ∧
      (graph_pass o (s, c)).1.is_complete = s.is_complete) := by
  simp only [graph_pass, researcher_node, writer_node, reviewer_node, seo_node,
    iteration_controller]
  refine ⟨?_, ?_, ?_, ?_⟩
  · split_ifs <;> rfl
  · split_ifs <;> rfl
  · intro h
    split_ifs <;> simp_all <;> omega
  · intro h
    split_ifs <;> simp_all <;> omega

/-- The counters after one pass. -/
theorem graph_pass_counts (o : Oracles) (s : BlogStateR) (c : Counts) :
    (graph_pass o (s, c)).2 =
      { researcher_full := c.researcher_full +
          (if 1 < s.current_iteration && s.research_context.isSome then 0 else 1)
      , researcher_cached := c.researcher_cached +
          (if 1 < s.current_iteration && s.research_context.isSome then 1 else 0)
      , writer := c.writer + 1
      , reviewer := c.reviewer + 1
      , seo := c.seo + 1 } := rfl

/-- Full-run invariant: starting a pass with `d` further passes to go
(`current_iteration + d = max_iterations`), the run completes with the
counter frozen at the bound, the iteration-1 research context cached, and
each of writer/reviewer/seo executed once per pass, the researcher's
expensive path only when starting from iteration 1. -/
theorem run_graph_aux_spec (o : Oracles) :
    ∀ (d : Nat) (s : BlogStateR) (c : Counts),
      s.is_complete = false →
      1 ≤ s.current_iteration →
      s.current_iteration + d = s.max_iterations →
      s.research_context =
        (if s.current_iteration = 1 then none else some (researchContextOf o)) →
      (run_graph_aux o (d + 1) (s, c)).1.is_complete = true ∧
      (run_graph_aux o (d + 1) (s, c)).1.current_iteration = s.max_iterations ∧
      (run_graph_aux o (d + 1) (s, c)).1.max_iterations = s.max_iterations ∧
      (run_graph_aux o (d + 1) (s, c)).1.research_context = some (researchContextOf o) ∧
      (run_graph_aux o (d + 1) (s, c)).2.writer = c.writer + (d + 1) ∧
      (run_graph_aux o (d + 1) (s, c)).2.reviewer = c.reviewer + (d + 1) ∧
      (run_graph_aux o (d + 1) (s, c)).2.seo = c.seo + (d + 1) ∧
      (run_graph_aux o (d + 1) (s, c)).2.researcher_full =
        c.researcher_full + (if s.current_iteration = 1 then 1 else 0) ∧
      (run_graph_aux o (d + 1) (s, c)).2.researcher_cached =
        c.researcher_cached + (d + (if s.current_iteration = 1 then 0 else 1)) := by
  intro d
  induction d with
  | zero =>
    intro s c hcomp hge hsum hctx
    obtain ⟨hmax, hrc, hdone, _⟩ := graph_pass_state o s c
    have hlt : s.max_iterations < s.current_iteration + 1 := by omega
    obtain ⟨hci, hic⟩ := hdone hlt
    have hcached :
        (1 < s.current_iteration && s.research_context.isSome) =
          decide (¬ s.current_iteration = 1) := by
      by_cases h1 : s.current_iteration = 1 <;> simp [h1, hctx] <;> omega
    have hroute : should_continue (graph_pass o (s, c)).1 = Route.finish := by
      simp [should_continue, hic]
    have hrun : run_graph_aux o 1 (s, c) = graph_pass o (s, c) := by
      simp only [run_graph_aux, hroute]
    rw [hrun]
    rw [graph_pass_counts o s c]
    refine ⟨hic, by omega, by omega, ?_, by simp, by simp, by simp, ?_, ?_⟩
    · rw [hrc, hcached]
      by_cases h1 : s.current_iteration = 1 <;> simp [h1, hctx]
    · rw [hcached]
      by_cases h1 : s.current_iteration = 1 <;> simp [h1]
    · rw [hcached]
      by_cases h1 : s.current_iteration = 1 <;> simp [h1]
  | succ d ih =>
    intro s c hcomp hge hsum hctx
    obtain ⟨hmax, hrc, _, hstep⟩ := graph_pass_state o s c
    have hle : s.current_iteration + 1 ≤ s.max_iterations := by omega
    obtain ⟨hci, hic⟩ := hstep hle
    have hcached :
        (1 < s.current_iteration && s.research_context.isSome) =
          decide (¬ s.current_iteration = 1) := by
      by_cases h1 : s.current_iteration = 1 <;> simp [h1, hctx] <;> omega
    have hroute : should_continue (graph_pass o (s, c)).1 = Route.writer := by
      simp [should_continue, hic, hcomp]
    have hrun : run_graph_aux o (d + 1 + 1) (s, c) =
        run_graph_aux o (d + 1) (graph_pass o (s, c)) := by
      conv_lhs => rw [run_graph_aux]
      simp only [hroute]
    have hpair : graph_pass o (s, c) = ((graph_pass o (s, c)).1, (graph_pass o (s, c)).2) := rfl
    have hih := ih (graph_pass o (s, c)).1 (graph_pass o (s, c)).2
      (by rw [hic, hcomp]) (by omega) (by omega)
      (by
        rw [hrc, hcached]
        by_cases h1 : s.current_iteration = 1 <;> simp [h1, hctx, hci] <;> omega)
    have hgp := graph_pass_counts o s c
    have hw : (graph_pass o (s, c)).2.writer = c.writer + 1 := by rw [hgp]
    have hv : (graph_pass o (s, c)).2.reviewer = c.reviewer + 1 := by rw [hgp]
    have hso : (graph_pass o (s, c)).2.seo = c.seo + 1 := by rw [hgp]
    have hfu : (graph_pass o (s, c)).2.researcher_full =
        c.researcher_full + (if s.current_iteration = 1 then 1 else 0) := by
      rw [hgp, hcached]
      by_cases hk1 : s.current_iteration = 1 <;> simp [hk1]
    have hca : (graph_pass o (s, c)).2.researcher_cached =
        c.researcher_cached + (if s.current_iteration = 1 then 0 else 1) := by
      rw [hgp, hcached]
      by_cases hk1 : s.current_iteration = 1 <;> simp [hk1]
    have hne1 : ¬ (graph_pass o (s, c)).1.current_iteration = 1 := by
      rw [hci]; omega
    rw [hrun, hpair]
    obtain ⟨h1, h2, h3, h4, h5, h6, h7, h8, h9⟩ := hih
    simp only [hne1, if_neg, not_false_iff] at h8 h9
    refine ⟨h1, by rw [h2, hmax], by rw [h3, hmax], h4,
      by rw [h5, hw]; omega, by rw [h6, hv]; omega, by rw [h7, hso]; omega, ?_, ?_⟩
    · rw [h8, hfu]
      omega
    · rw [h9, hca]
      by_cases hk1 : s.current_iteration = 1 <;> simp [hk1] <;> omega

/-- The head of `dropWhile p l` never satisfies `p`. -/
theorem head_dropWhile_false {α : Type} (p : α → Bool) (l : List α) (c : α)
    (h : (l.dropWhile p).head? = some c) : p c = false := by
  induction l with
  | nil => simp [List.dropWhile] at h
  | cons a rest ih =>
    rw [List.dropWhile_cons] at h
    by_cases hp : p a = true
    · rw [if_pos hp] at h
      exact ih h
    · rw [if_neg hp] at h
      simp at h
      rw [← h]
      simpa using hp

/-- Stripping both ends keeps a prefix of the front-stripped list. -/
theorem pyStripList_prefixOf (p : Char → Bool) (l : List Char) :
    pyStripList p l <+: l.dropWhile p := by
  rw [pyStripList]
  have h1 : ((l.dropWhile p).reverse.dropWhile p) <:+ (l.dropWhile p).reverse :=
    List.dropWhile_suffix p
  have h2 : ((l.dropWhile p).reverse.dropWhile p).reverse.reverse <:+
      (l.dropWhile p).reverse := by
    rwa [List.reverse_reverse]
  exact List.reverse_suffix.mp h2

/-- Every character of the stripped list occurs in the original. -/
theorem pyStripList_subset (p : Char → Bool) (l : List Char) :
    pyStripList p l ⊆ l := by
  intro c hc
  have h1 : c ∈ l.dropWhile p := (pyStripList_prefixOf p l).subset hc
  exact (List.dropWhile_sublist p).subset h1

/-- The head of the stripped list never satisfies the strip predicate. -/
theorem pyStripList_head (p : Char → Bool) (l : List Char) (c : Char)
    (h : (pyStripList p l).head? = some c) : p c = false := by
  obtain ⟨t, ht⟩ := pyStripList_prefixOf p l
  cases hcase : pyStripList p l with
  | nil => rw [hcase] at h; simp at h
  | cons a as =>
    rw [hcase] at h ht
    simp at h
    apply head_dropWhile_false p l c
    rw [← ht, ← h]
    simp

/-- When the (case-insensitively matched) label-plus-colon occurs nowhere
in the text, the list-section scanner finds nothing. -/
theorem findList_eq_none (label : List Char) (l : List Char)
    (h : occursCI (label ++ [':']) l = false) : findList label l = none := by
  induction l with
  | nil => rfl
  | cons c rest ih =>
    rw [occursCI, Bool.or_eq_false_iff] at h
    have hm : matchCI (label ++ [':']) (c :: rest) = none := by
      cases hmm : matchCI (label ++ [':']) (c :: rest) with
      | none => rfl
      | some r => rw [hmm] at h; simp at h
    have htry : tryListAt label (c :: rest) = none := by
      rw [tryListAt, hm]
    rw [findList, htry]
    exact ih h.2

/-- Collapsing whitespace/underscore runs over characters drawn from the
kept class produces only slug characters. -/
theorem collapseRuns_chars (l : List Char) :
    ∀ (b : Bool), (∀ c ∈ l, slugAllowed c = true) →
      ∀ c ∈ collapseRuns b l, isSlugChar c = true := by
  induction l with
  | nil => intro b _ c hc; simp [collapseRuns] at hc
  | cons a rest ih =>
    intro b hall c hc
    rw [collapseRuns] at hc
    by_cases hws : wsOrUnderscore a = true
    · rw [if_pos hws] at hc
      have hrest : ∀ x ∈ rest, slugAllowed x = true := fun x hx => hall x (by simp [hx])
      by_cases hb : b = true
      · rw [if_pos hb] at hc
        exact ih true hrest c hc
      · rw [if_neg hb] at hc
        rcases List.mem_cons.mp hc with hh | ht
        · rw [hh]; rfl
        · exact ih true hrest c ht
    · rw [if_neg hws] at hc
      rcases List.mem_cons.mp hc with hh | ht
      · have ha : slugAllowed a = true := hall a (by simp)
        rw [hh]
        simp only [slugAllowed, Bool.or_eq_true, Bool.and_eq_true,
          decide_eq_true_eq] at ha
        simp only [wsOrUnderscore, Bool.or_eq_true, decide_eq_true_eq,
          not_or] at hws
        simp only [isSlugChar, Bool.or_eq_true, Bool.and_eq_true,
          decide_eq_true_eq]
        rcases ha with ((h1 | h2) | h3) | h4
        · exact Or.inl (Or.inl (Or.inl h1))
        · exact Or.inl (Or.inl (Or.inr h2))
        · exact absurd h3 (by simpa using hws.1)
        · exact Or.inl (Or.inr h4)
      · exact ih false (fun x hx => hall x (by simp [hx])) c ht

/-! ## Claims -/

/-- C7: for every draft text, the word-count metric equals the number of
whitespace-separated tokens (maximal non-whitespace runs) of the text, and
recomputing the metric on the unchanged text yields the same value. -/
theorem claim_word_count_tokens (content : String) :
    count_words content = tokenStarts true content.data ∧
    count_words content = count_words content := by
  refine ⟨?_, rfl⟩
  have h := pyTokensAux_length content.data []
  simpa [count_words] using h

/-- C6: for every draft text with exactly 9 lines whose stripped form both
starts and ends with a pipe character, the table-count metric is 3; the
metric is never negative on any input. -/
theorem claim_table_count (content : String)
    (h : ((pySplitChar '\n' [] content.data).filter isTableLine).length = 9) :
    count_tables content = 3 ∧ ∀ t : String, 0 ≤ count_tables t := by
  constructor
  · simp only [count_tables]
    rw [h]
    decide
  · intro t
    exact Nat.zero_le _

/-- C6 witness: a concrete draft with exactly 9 pipe-delimited lines has
table count 3. -/
theorem claim_table_count_witness :
    ((pySplitChar '\n' [] ("| a |\n|b|\n | c |\n|d|\n|e|\n|f|\n|g|\n|h|\n|i|").data).filter isTableLine).length = 9 ∧
    count_tables "| a |\n|b|\n | c |\n|d|\n|e|\n|f|\n|g|\n|h|\n|i|" = 3 :=
  ⟨by decide, (claim_table_count "| a |\n|b|\n | c |\n|d|\n|e|\n|f|\n|g|\n|h|\n|i|" (by decide)).1⟩

/-- C3: evaluation of `count_code_blocks` at a draft holding exactly one
```python fenced opener.  The source sums the occurrence counts of
"```python" and "```py", and "```py" occurs inside every "```python", so
the draft is counted twice, not once as the claim states. -/
theorem claim_code_block_count_double :
    count_code_blocks "```python\nprint(1)\n```" = 2 ∧
    pyCount "```python" "```python\nprint(1)\n```" = 1 ∧
    ¬ count_code_blocks "```python\nprint(1)\n```" = 1 := by
  refine ⟨by decide, by decide, by decide⟩

/-- C5: score parsing clamps labelled scores into [1,10] for both the
reviewer's overall score and the SEO score: value 15 is stored as 10,
value 0 as 1, a missing label defaults to 5, and every parse result lies
in [1,10]. -/
theorem claim_score_clamping :
    parse_overall_score "OVERALL_SCORE: 15" = 10 ∧
    parse_overall_score "OVERALL_SCORE: 0" = 1 ∧
    parse_overall_score "no score label" = 5 ∧
    parse_seo_score "SEO_SCORE: 15" = 10 ∧
    parse_seo_score "SEO_SCORE: 0" = 1 ∧
    parse_seo_score "no score label" = 5 ∧
    (∀ t : String, 1 ≤ parse_overall_score t ∧ parse_overall_score t ≤ 10) ∧
    (∀ t : String, 1 ≤ parse_seo_score t ∧ parse_seo_score t ≤ 10) := by
  refine ⟨by decide, by decide, by decide, by decide, by decide, by decide, ?_, ?_⟩
  · intro t
    cases hf : findScore ("OVERALL_SCORE:".data) t.data <;>
      simp [parse_overall_score, hf, clampScore] <;> omega
  · intro t
    cases hf : findScore ("SEO_SCORE:".data) t.data <;>
      simp [parse_seo_score, hf, clampScore] <;> omega

/-- C9: the label-then-bullet-run list parser is a total function; when the
labelled section is absent from the response it yields the empty list (as
used by `researcher_node`); a malformed section (label present, no bullet
run) also yields the empty list; and the reviewer's three list fields are
always non-empty thanks to their hard-coded fallbacks, so a parsing miss
never aborts the stage. -/
theorem claim_list_parser_fallbacks (label text : String)
    (habs : occursCI (label.data ++ [':']) text.data = false) :
    extract_list label text = [] ∧
    extract_list "KEY_FACTS" "KEY_FACTS: no bullets in this section" = [] ∧
    (∀ t : String,
      (reviewFeedbackOf t).strengths ≠ [] ∧
      (reviewFeedbackOf t).improvements ≠ [] ∧
      (reviewFeedbackOf t).priority_fixes ≠ []) := by
  refine ⟨?_, by decide, ?_⟩
  · rw [extract_list, findList_eq_none label.data text.data habs]
  · intro t
    refine ⟨?_, ?_, ?_⟩ <;>
    · simp only [reviewFeedbackOf, orElseList]
      split_ifs with hemp
      · simp
      · simpa [List.isEmpty_eq_false] using hemp

/-- C9 witness: a response without the KEY_FACTS label parses to the empty
list, and the reviewer fallbacks are non-empty on the empty response. -/
theorem claim_list_parser_fallbacks_witness :
    extract_list "KEY_FACTS" "nothing labelled here" = [] ∧
    (reviewFeedbackOf "").strengths ≠ [] :=
  ⟨(claim_list_parser_fallbacks "KEY_FACTS" "nothing labelled here" (by decide)).1,
   ((claim_list_parser_fallbacks "KEY_FACTS" "nothing labelled here" (by decide)).2.2 "").1⟩

/-- C1 counterexample: a one-iteration run reaches the controller with
`current_iteration = max_iterations = 1`; the controller invocation sets
the completion flag but leaves the counter at 1 instead of incrementing it
to 2, and `is_complete` is true while `current_iteration` does not exceed
`max_iterations` — both parts of the claim fail at this reachable state. -/
theorem claim_controller_counterexample :
    (run_graph trivialOracles "Example Topic" 1).1.is_complete = true ∧
    (run_graph trivialOracles "Example Topic" 1).1.current_iteration = 1 ∧
    (run_graph trivialOracles "Example Topic" 1).1.max_iterations = 1 ∧
    ¬ (run_graph trivialOracles "Example Topic" 1).1.current_iteration = 2 ∧
    ¬ (run_graph trivialOracles "Example Topic" 1).1.current_iteration >
        (run_graph trivialOracles "Example Topic" 1).1.max_iterations := by
  refine ⟨by decide, by decide, by decide, by decide, by decide⟩

/-- C1 (amended): each controller invocation increments `current_iteration`
by exactly 1 and leaves `is_complete` unchanged when the incremented value
stays within `max_iterations`; when the incremented value would exceed
`max_iterations` it leaves the counter unchanged and sets `is_complete`.
Hence the counter is monotonically non-decreasing and, whenever it starts
within the bound, stays bounded by `max_iterations`. -/
theorem claim_controller_spec (s : BlogStateR) :
    (s.current_iteration + 1 ≤ s.max_iterations →
      (iteration_controller s).current_iteration = s.current_iteration + 1 ∧
      (iteration_controller s).is_complete = s.is_complete) ∧
    (s.max_iterations < s.current_iteration + 1 →
      (iteration_controller s).current_iteration = s.current_iteration ∧
      (iteration_controller s).is_complete = true) ∧
    s.current_iteration ≤ (iteration_controller s).current_iteration ∧
    (s.current_iteration ≤ s.max_iterations →
      (iteration_controller s).current_iteration ≤ s.max_iterations) := by
  simp only [iteration_controller]
  split_ifs with h
  · refine ⟨fun h2 => absurd h2 (by omega), fun _ => ⟨rfl, rfl⟩, by simp, fun _ => by simp; omega⟩
  · refine ⟨fun _ => ⟨rfl, rfl⟩, fun h2 => absurd h2 (by omega), by simp, fun _ => by simp; omega⟩

/-- C1 witness: the amended controller behaviour at two concrete states. -/
theorem claim_controller_spec_witness :
    (iteration_controller { create_initial_state "t" 3 with current_iteration := 2 }).current_iteration = 3 ∧
    (iteration_controller { create_initial_state "t" 3 with current_iteration := 3 }).is_complete = true := by
  constructor
  · exact ((claim_controller_spec
      { create_initial_state "t" 3 with current_iteration := 2 }).1 (by decide)).1
  · exact ((claim_controller_spec
      { create_initial_state "t" 3 with current_iteration := 3 }).2.1 (by decide)).2

/-- C2: for every iteration count N ≥ 1 and any oracle responses, one run
of the compiled graph executes the writer, reviewer and SEO node bodies
exactly N times each, takes the researcher's expensive
research-and-synthesis path exactly once, and takes its cached no-op path
on the other N - 1 passes; the final state carries exactly the research
context assembled on iteration 1, and the cached branch of the researcher
never rewrites a present context. -/
theorem claim_stage_execution_counts (o : Oracles) (topic : String) (n : Nat)
    (hn : 1 ≤ n) :
    (run_graph o topic n).2.writer = n ∧
    (run_graph o topic n).2.reviewer = n ∧
    (run_graph o topic n).2.seo = n ∧
    (run_graph o topic n).2.researcher_full = 1 ∧
    (run_graph o topic n).2.researcher_cached = n - 1 ∧
    (run_graph o topic n).1.research_context = some (researchContextOf o) ∧
    (∀ s : BlogStateR, 1 < s.current_iteration → s.research_context.isSome = true →
      (researcher_node o s).research_context = s.research_context) := by
  obtain ⟨d, rfl⟩ : ∃ d, n = d + 1 := ⟨n - 1, by omega⟩
  have hspec := run_graph_aux_spec o d (create_initial_state topic (d + 1)) counts0
    rfl (by simp [create_initial_state])
    (by simp [create_initial_state]; omega)
    (by simp [create_initial_state])
  obtain ⟨h1, h2, h3, h4, h5, h6, h7, h8, h9⟩ := hspec
  refine ⟨?_, ?_, ?_, ?_, ?_, ?_, ?_⟩
  · simpa [run_graph, counts0] using h5
  · simpa [run_graph, counts0] using h6
  · simpa [run_graph, counts0] using h7
  · simpa [run_graph, counts0, create_initial_state] using h8
  · simpa [run_graph, counts0, create_initial_state] using h9
  · simpa [run_graph] using h4
  · intro s hgt hsome
    rw [researcher_node, if_pos (by simp [hgt, hsome])]

/-- C2 witness: a concrete two-iteration run with trivial oracles. -/
theorem claim_stage_execution_counts_witness :
    (run_graph trivialOracles "t" 2).2.writer = 2 ∧
    (run_graph trivialOracles "t" 2).2.researcher_full = 1 ∧
    (run_graph trivialOracles "t" 2).2.researcher_cached = 1 :=
  ⟨(claim_stage_execution_counts trivialOracles "t" 2 (by decide)).1,
   (claim_stage_execution_counts trivialOracles "t" 2 (by decide)).2.2.2.1,
   (claim_stage_execution_counts trivialOracles "t" 2 (by decide)).2.2.2.2.1⟩

set_option maxRecDepth 40000 in
/-- C4 counterexample: for a response whose META_DESCRIPTION line carries a
200-character candidate, the analysis stored into the state by the
LangGraph `seo_node` keeps the candidate unchanged — its length is 200,
not 160 as claimed. -/
theorem claim_meta_truncation_counterexample :
    (seoAnalysisOf ("META_DESCRIPTION: " ++ (⟨List.replicate 200 'x'⟩ : String))
        "some topic" "Some Title").meta_description =
      (⟨List.replicate 200 'x'⟩ : String) ∧
    (seoAnalysisOf ("META_DESCRIPTION: " ++ (⟨List.replicate 200 'x'⟩ : String))
        "some topic" "Some Title").meta_description.length = 200 ∧
    ¬ (seoAnalysisOf ("META_DESCRIPTION: " ++ (⟨List.replicate 200 'x'⟩ : String))
        "some topic" "Some Title").meta_description.length = 160 := by
  refine ⟨by decide, by decide, by decide⟩

/-- C4 (amended): the truncation lives in `SEOAgent._parse_seo_response`
alone: there, a candidate longer than 160 characters is stored with length
exactly 160 and an ellipsis-marker suffix, and a candidate of at most 160
characters is stored unchanged; the LangGraph `seo_node`, which feeds the
pipeline state and the export, stores the extracted candidate with no
truncation. -/
theorem claim_meta_truncation_spec (s : String) :
    (160 < s.length →
      (truncate_meta_description s).length = 160 ∧
      ∃ p : List Char, (truncate_meta_description s).data = p ++ ("...".data)) ∧
    (s.length ≤ 160 → truncate_meta_description s = s) := by
  constructor
  · intro h
    have hlen : 160 < s.data.length := h
    rw [truncate_meta_description, if_pos hlen]
    constructor
    · show (s.data.take 157 ++ ("...".data)).length = 160
      rw [List.length_append, List.length_take]
      simp
      omega
    · exact ⟨s.data.take 157, rfl⟩
  · intro h
    have hl : s.length = s.data.length := rfl
    rw [truncate_meta_description, if_neg (by omega)]

set_option maxRecDepth 40000 in
/-- C4 witness: the amended truncation behaviour at two concrete
candidates. -/
theorem claim_meta_truncation_spec_witness :
    (truncate_meta_description (⟨List.replicate 200 'x'⟩ : String)).length = 160 ∧
    truncate_meta_description "a short description" = "a short description" := by
  constructor
  · exact ((claim_meta_truncation_spec (⟨List.replicate 200 'x'⟩ : String)).1 (by decide)).1
  · exact (claim_meta_truncation_spec "a short description").2 (by decide)

/-- C8: for every final state, the exported footer's reading time is the
word count integer-divided by 200 (so 200·rt ≤ words < 200·rt + 200), and
its tag list is the first five primary SEO keywords, falling back to the
bare topic when the keyword entry is absent — in particular it never holds
more than five tags and every tag is drawn from that source list. -/
theorem claim_footer_reading_time_and_tags (word_count : Nat)
    (primary_keywords : Option (List String)) (topic : String) :
    (generate_footer word_count primary_keywords topic).reading_time_minutes =
      word_count / 200 ∧
    200 * (generate_footer word_count primary_keywords topic).reading_time_minutes ≤
      word_count ∧
    word_count <
      200 * (generate_footer word_count primary_keywords topic).reading_time_minutes + 200 ∧
    (generate_footer word_count primary_keywords topic).tags.length ≤ 5 ∧
    (∀ t ∈ (generate_footer word_count primary_keywords topic).tags,
      t ∈ primary_keywords.getD [topic]) ∧
    (primary_keywords = none →
      (generate_footer word_count primary_keywords topic).tags = [topic]) := by
  refine ⟨rfl, ?_, ?_, ?_, ?_, ?_⟩
  · simp only [generate_footer]
    omega
  · simp only [generate_footer]
    omega
  · simp only [generate_footer, List.length_take]
    omega
  · intro t ht
    exact List.take_subset 5 _ ht
  · intro h
    simp [generate_footer, h]

/-- C8 witness: footer data at a concrete word count with six keywords,
and at a keywordless state. -/
theorem claim_footer_reading_time_and_tags_witness :
    (generate_footer 450 (some ["a", "b", "c", "d", "e", "f"]) "t").reading_time_minutes = 2 ∧
    (generate_footer 450 (some ["a", "b", "c", "d", "e", "f"]) "t").tags.length ≤ 5 ∧
    (generate_footer 199 none "t").tags = ["t"] := by
  refine ⟨?_, ?_, ?_⟩
  · have h := (claim_footer_reading_time_and_tags 450 (some ["a", "b", "c", "d", "e", "f"]) "t").1
    simpa using h
  · exact (claim_footer_reading_time_and_tags 450 (some ["a", "b", "c", "d", "e", "f"]) "t").2.2.2.1
  · exact (claim_footer_reading_time_and_tags 199 none "t").2.2.2.2.2 rfl

/-- C10: for every topic string, the slug used to name the output file has
length at most 50, contains only lowercase ASCII letters, digits, hyphens
and underscores, and does not begin with an underscore. -/
theorem claim_slugify_shape (s : String) :
    (slugify s).length ≤ 50 ∧
    (∀ c ∈ (slugify s).data, isSlugChar c = true) ∧
    ¬ (slugify s).data.head? = some '_' := by
  have hdata : (slugify s).data =
      (pyStripList (fun c => c = '_')
        (collapseRuns false ((s.data.map Char.toLower).filter slugAllowed))).take 50 := rfl
  refine ⟨?_, ?_, ?_⟩
  · show (slugify s).data.length ≤ 50
    rw [hdata, List.length_take]
    omega
  · intro c hc
    rw [hdata] at hc
    have h1 := List.take_subset 50 _ hc
    have h2 := pyStripList_subset (fun c => c = '_') _ h1
    refine collapseRuns_chars _ false ?_ c h2
    intro x hx
    exact List.of_mem_filter hx
  · intro hhead
    rw [hdata] at hhead
    set stripped := pyStripList (fun c => c = '_')
      (collapseRuns false ((s.data.map Char.toLower).filter slugAllowed)) with hstr
    cases hcase : stripped with
    | nil => rw [hcase] at hhead; simp at hhead
    | cons a as =>
      rw [hcase] at hhead
      simp [List.take_cons] at hhead
      have hne := pyStripList_head (fun c => c = '_')
        (collapseRuns false ((s.data.map Char.toLower).filter slugAllowed)) a
        (by rw [← hstr, hcase]; rfl)
      rw [hhead] at hne
      simp at hne

/-- C10 witness: the slug of a concrete topic, with the shape facts
obtained from the general theorem. -/
theorem claim_slugify_shape_witness :
    slugify "  Hello, World! -- 42nd Try_Again  " = "hello_world_--_42nd_tryagain" ∧
    (slugify "  Hello, World! -- 42nd Try_Again  ").length ≤ 50 ∧
    ¬ (slugify "  Hello, World! -- 42nd Try_Again  ").data.head? = some '_' :=
  ⟨by decide,
   (claim_slugify_shape "  Hello, World! -- 42nd Try_Again  ").1,
   (claim_slugify_shape "  Hello, World! -- 42nd Try_Again  ").2.2⟩
